import Mathlib

/-!
Verification development for the slot-pool control server.

This file embeds, as executable Lean definitions, the parts of the source
relevant to the frozen claims:

* `slot.py`   — the per-tab slot state machine (`Slot`, `SlotState`,
  `acquire`, `release`, `mark_error`, `mark_free`, `validate_lease`,
  `send_message`),
* `pool.py`   — the pool (`SlotPool.acquire`, `SlotPool.release`,
  `_assign_next_in_queue`, the FIFO waiting queue),
* `server.py` — the send-endpoint validation and the text-merge helper
  (`SendRequest.validate_upload_limit`, `_merge_text_content`),
* `clipboard.py` — the phased response extractor
  (`extract_response_via_clipboard`).

Modelling conventions: machine time (`time.monotonic`) is an explicit `Nat`
parameter; the random token `uuid.uuid4().hex` is an explicit `String`
parameter supplied by the caller (the uuid library guarantees a fresh
32-character lowercase hex string — where a claim needs that fact it appears
as a hypothesis on the supplied token); browser/DOM interactions are
represented by observation structures whose fields record what the page
returns at each poll; exceptions become `Except` values.
-/

set_option maxHeartbeats 1000000
set_option maxRecDepth 8192

/-- States of a pool slot (`SlotState` in `slot.py`). -/
inductive SlotState
  | FREE
  | BUSY
  | ERROR
  deriving DecidableEq, Repr

/-- The mutable per-tab state of `Slot` in `slot.py` (the Playwright page
object is not modelled; no claim depends on it). -/
structure Slot where
  slot_id : Nat
  state : SlotState := .FREE
  owner : Option String := none
  lease_token : Option String := none
  last_activity : Nat := 0
  message_count : Nat := 0
  message_preview : String := ""
  is_sending : Bool := false
  deriving DecidableEq, Repr

/-- `Slot.__init__`: fresh slot, `FREE`, no owner, no token. -/
def Slot.init (slot_id : Nat) (now : Nat) : Slot :=
  { slot_id := slot_id, state := .FREE, owner := none, lease_token := none,
    last_activity := now, message_count := 0, message_preview := "",
    is_sending := false }

/-- The field updates performed by `Slot.acquire` once the FREE check has
passed: state BUSY, owner set, the freshly generated token installed,
activity stamped, counters reset. -/
def Slot.acquireSet (s : Slot) (owner tok : String) (now : Nat) : Slot :=
  { s with state := .BUSY, owner := some owner, lease_token := some tok,
           last_activity := now, message_count := 0, message_preview := "" }

/-- `Slot.acquire` (slot.py): raises `RuntimeError` unless the slot is FREE;
otherwise transitions FREE -> BUSY and returns the generated token.  The
token `tok` stands for `uuid.uuid4().hex`. -/
def Slot.acquire (s : Slot) (owner tok : String) (now : Nat) :
    Except String (Slot × String) :=
  if s.state ≠ .FREE then .error "slot is not FREE, cannot acquire"
  else .ok (s.acquireSet owner tok now, tok)

/-- `Slot.release` (slot.py): BUSY -> FREE, clears ownership, token,
counters and the sending flag. -/
def Slot.release (s : Slot) : Slot :=
  { s with state := .FREE, owner := none, lease_token := none,
           message_count := 0, message_preview := "", is_sending := false }

/-- `Slot.mark_error` (slot.py): any state -> ERROR, clears owner, token and
the sending flag (counters are left as they are). -/
def Slot.mark_error (s : Slot) : Slot :=
  { s with state := .ERROR, owner := none, lease_token := none,
           is_sending := false }

/-- `Slot.mark_free` (slot.py): installs a replacement page (not modelled)
and transitions to FREE with everything cleared and activity restamped. -/
def Slot.mark_free (s : Slot) (now : Nat) : Slot :=
  { s with state := .FREE, owner := none, lease_token := none,
           message_count := 0, message_preview := "", is_sending := false,
           last_activity := now }

/-- The two lease-validation failures of `validate_lease`. -/
inductive LeaseError
  | leaseExpired
  | invalidToken
  deriving DecidableEq, Repr

/-- `Slot.validate_lease` (slot.py): `LeaseExpiredError` when the slot is
not BUSY, else `InvalidTokenError` when the stored token differs from the
presented one, else returns normally.  It mutates nothing. -/
def Slot.validate_lease (s : Slot) (token : String) : Except LeaseError Unit :=
  if s.state ≠ .BUSY then .error .leaseExpired
  else if s.lease_token ≠ some token then .error .invalidToken
  else .ok ()

/-- `Slot.touch` (slot.py): restamp the activity timestamp. -/
def Slot.touch (s : Slot) (now : Nat) : Slot :=
  { s with last_activity := now }

/-- One transition of the slot state machine, for invariant claims.  A Python
`acquire` on a non-FREE slot raises before mutating anything, so it leaves
the slot unchanged here. -/
inductive SlotOp
  | acquireOp (owner tok : String) (now : Nat)
  | releaseOp
  | markErrorOp
  | markFreeOp (now : Nat)
  deriving DecidableEq, Repr

/-- Apply one `SlotOp` to a slot. -/
def Slot.step (s : Slot) : SlotOp → Slot
  | .acquireOp o t n =>
      match s.acquire o t n with
      | .ok (s2, _) => s2
      | .error _ => s
  | .releaseOp => s.release
  | .markErrorOp => s.mark_error
  | .markFreeOp n => s.mark_free n

/-- Apply a sequence of transitions to a slot. -/
def Slot.run (s : Slot) (ops : List SlotOp) : Slot :=
  ops.foldl Slot.step s

/-- A lowercase hexadecimal digit, the alphabet of `uuid.uuid4().hex`. -/
def isLowerHexChar (c : Char) : Bool :=
  (decide ('0' ≤ c) && decide (c ≤ '9')) ||
  (decide ('a' ≤ c) && decide (c ≤ 'f'))

/-- A 32-character lowercase hex string — the shape of `uuid.uuid4().hex`. -/
def isHex32 (t : String) : Bool :=
  (t.length == 32) && t.data.all isLowerHexChar

/-- Pool sizing configuration (`PoolConfig` in config.py). -/
structure PoolConfig where
  size : Nat := 4
  inactivity_timeout_s : Nat := 300
  max_queue_depth : Nat := 10
  deriving DecidableEq, Repr

/-- A waiting-queue record (`_QueueEntry` in pool.py). -/
structure QueueEntry where
  owner : String
  enqueued_at : Nat
  deriving DecidableEq, Repr

/-- The three result shapes of `SlotPool.acquire` (`SlotAcquired`, `Queued`,
`Rejected` in pool.py), as the tagged union they encode.  `lease_token` is
optional exactly because the Python dataclass is populated from the slot's
`Optional[str]` field on the reattach path. -/
inductive AcquireResult
  | acquired (slot_id : Nat) (lease_token : Option String) (reattached : Bool)
      (expires_after_inactive_s : Nat)
  | queued (queue_position : Nat) (estimated_wait_s : Nat)
  | rejected (total_slots : Nat) (queue_depth : Nat) (queue_max : Nat)
  deriving DecidableEq, Repr

/-- The pool state (`SlotPool` in pool.py): the slots in insertion order
(Python's dict preserves it), the FIFO queue and the configuration.
Monitors, browser handle and timestamps are not modelled. -/
structure SlotPool where
  slots : List Slot
  queue : List QueueEntry := []
  pool_config : PoolConfig := {}
  deriving DecidableEq, Repr

/-- The reattach scan of `SlotPool.acquire`: first slot that is BUSY and
owned by `owner` (the `for slot in self._slots.values()` loop). -/
def findReattach (owner : String) : List Slot → Option Slot
  | [] => none
  | s :: rest =>
      if s.state = .BUSY ∧ s.owner = some owner then some s
      else findReattach owner rest

/-- The queue scan of `SlotPool.acquire`: 0-based index of the owner's
entry, if any (the `for idx, entry in enumerate(self._queue)` loop). -/
def queuePosition (owner : String) : List QueueEntry → Option Nat
  | [] => none
  | e :: rest =>
      if e.owner = owner then some 0
      else (queuePosition owner rest).map (· + 1)

/-- The free-slot scan of `SlotPool.acquire`: acquire the first FREE slot in
place, returning its id and the updated slot list. -/
def acquireFirstFree (owner tok : String) (now : Nat) :
    List Slot → Option (Nat × List Slot)
  | [] => none
  | s :: rest =>
      if s.state = .FREE then some (s.slot_id, s.acquireSet owner tok now :: rest)
      else
        match acquireFirstFree owner tok now rest with
        | some (sid, rest2) => some (sid, s :: rest2)
        | none => none

/-- `SlotPool.acquire` (pool.py): reattach to a BUSY slot of the same owner,
else report an existing queue position, else take the first FREE slot, else
enqueue if below `max_queue_depth`, else reject.  `tok` stands for the
`uuid.uuid4().hex` a fresh slot acquisition would generate, `now` for
`time.monotonic()`. -/
def SlotPool.acquire (p : SlotPool) (owner tok : String) (now : Nat) :
    AcquireResult × SlotPool :=
  match findReattach owner p.slots with
  | some s =>
      (.acquired s.slot_id s.lease_token true p.pool_config.inactivity_timeout_s, p)
  | none =>
    match queuePosition owner p.queue with
    | some idx =>
        (.queued (idx + 1) (max 1 ((idx + 1) * 30)), p)
    | none =>
      match acquireFirstFree owner tok now p.slots with
      | some (sid, slots2) =>
          (.acquired sid (some tok) false p.pool_config.inactivity_timeout_s,
           { p with slots := slots2 })
      | none =>
        if p.queue.length < p.pool_config.max_queue_depth then
          (.queued (p.queue.length + 1) (max 1 ((p.queue.length + 1) * 30)),
           { p with queue := p.queue ++ [{ owner := owner, enqueued_at := now }] })
        else
          (.rejected p.slots.length p.queue.length p.pool_config.max_queue_depth, p)

/-- `SlotPool._get_slot`'s dict lookup: first slot with the given id
(dict keys are unique, so "first" is "the"). -/
def findSlot (sid : Nat) : List Slot → Option Slot
  | [] => none
  | s :: rest => if s.slot_id = sid then some s else findSlot sid rest

/-- In-place mutation of the slot object found by `_get_slot`: replace the
first slot with the given id. -/
def updateSlot (sid : Nat) (s2 : Slot) : List Slot → List Slot
  | [] => []
  | s :: rest =>
      if s.slot_id = sid then s2 :: rest else s :: updateSlot sid s2 rest

/-- `SlotPool._assign_next_in_queue` (pool.py): if the slot is FREE and the
queue is non-empty, pop the head entry and acquire the slot for that owner.
`tok` stands for the `uuid.uuid4().hex` of the handoff acquisition. -/
def SlotPool.assign_next_in_queue (p : SlotPool) (sid : Nat) (tok : String)
    (now : Nat) : SlotPool :=
  match findSlot sid p.slots with
  | none => p
  | some s =>
      if s.state ≠ .FREE then p
      else
        match p.queue with
        | [] => p
        | e :: rest =>
            { p with slots := updateSlot sid (s.acquireSet e.owner tok now) p.slots,
                     queue := rest }

/-- The errors `SlotPool.release` can raise: `KeyError` from `_get_slot`,
or a lease failure from `validate_lease`. -/
inductive PoolError
  | keyError
  | lease (e : LeaseError)
  deriving DecidableEq, Repr

/-- `SlotPool.release` (pool.py): look the slot up, validate the lease,
release the slot, then run the synchronous queue handoff
(`_assign_next_in_queue`) before returning. -/
def SlotPool.release (p : SlotPool) (sid : Nat) (token : String)
    (handoffTok : String) (now : Nat) : Except PoolError SlotPool :=
  match findSlot sid p.slots with
  | none => .error .keyError
  | some s =>
      match s.validate_lease token with
      | .error e => .error (.lease e)
      | .ok _ =>
          let p2 : SlotPool := { p with slots := updateSlot sid s.release p.slots }
          .ok (p2.assign_next_in_queue sid handoffTok now)

/-- A sequence of `release` calls, as issued by k clients returning their
slots; `freshTok i` is the handoff token generated by the i-th call. -/
def releaseAll (freshTok : Nat → String) (now : Nat) :
    SlotPool → List (Nat × String) → Nat → Except PoolError SlotPool
  | p, [], _ => .ok p
  | p, (sid, tk) :: rest, i =>
      match p.release sid tk (freshTok i) now with
      | .error e => .error e
      | .ok p2 => releaseAll freshTok now p2 rest (i + 1)

/-- Response format tag: `"markdown"` when the copy button worked,
`"plaintext"` for the DOM fallback. -/
inductive RespFormat
  | markdown
  | plaintext
  deriving DecidableEq, Repr

/-- The browser configuration fields used by the send path
(`BrowserConfig` in config.py). -/
structure BrowserConfig where
  headless : Bool := false
  navigation_timeout_ms : Nat := 30000
  navigation_retries : Nat := 3
  response_timeout_ms : Nat := 2400000
  preferred_model : String := "Pro"
  max_files_per_turn : Nat := 9
  deriving DecidableEq, Repr

/-- `SEND_TIMEOUT_MARGIN_S` in slot.py. -/
def SEND_TIMEOUT_MARGIN_S : Nat := 100

/-- The outer deadline of `Slot.send_message`, in seconds:
`(response_timeout_ms / 1000) + SEND_TIMEOUT_MARGIN_S` (a Python float
division, so a rational here). -/
def sendTimeoutS (cfg : BrowserConfig) : ℚ :=
  (cfg.response_timeout_ms : ℚ) / 1000 + (SEND_TIMEOUT_MARGIN_S : ℚ)

/-- How the awaited `_send_impl` call inside `asyncio.wait_for` ends:
it produces a response, some exception escapes it, or the outer deadline
expires first (`asyncio.TimeoutError`). -/
inductive SendOutcome
  | success (text : String) (fmt : RespFormat)
  | timedOut
  | failed
  deriving DecidableEq, Repr

/-- What `Slot.send_message` raises: the `TimeoutError` built in its
`except asyncio.TimeoutError` arm (carrying the configured deadline), or the
propagated `_send_impl` exception. -/
inductive SendError
  | timeoutError (timeout_s : ℚ)
  | implError
  deriving DecidableEq, Repr

/-- `Slot.send_message` (slot.py): set `is_sending`, touch, run `_send_impl`
under the outer deadline; on success bump the counter, store a 50-character
preview and touch again; on `asyncio.TimeoutError` raise `TimeoutError`;
in all cases the `finally` clears `is_sending`.  `t0` is the entry time and
`t1` the exit time (both in milliseconds of `time.monotonic`), so the
returned duration is `t1 - t0`. -/
def Slot.send_message (s : Slot) (cfg : BrowserConfig) (message : String)
    (outcome : SendOutcome) (t0 t1 : Nat) :
    Slot × Except SendError (String × RespFormat × Nat) :=
  let s1 := { s with is_sending := true, last_activity := t0 }
  match outcome with
  | .success text fmt =>
      ({ s1 with message_count := s1.message_count + 1,
                 message_preview := message.take 50,
                 last_activity := t1,
                 is_sending := false },
       .ok (text, fmt, t1 - t0))
  | .timedOut =>
      ({ s1 with is_sending := false }, .error (.timeoutError (sendTimeoutS cfg)))
  | .failed =>
      ({ s1 with is_sending := false }, .error .implError)

/-- The characters of the final path component: everything after the last
separator. -/
def basenameAux : List Char → List Char → List Char
  | [], acc => acc.reverse
  | c :: rest, acc =>
      if c = '/' then basenameAux rest [] else basenameAux rest (c :: acc)

/-- `Path(file_path).name`: the final path component. -/
def basename (p : String) : String :=
  ⟨basenameAux p.data []⟩

/-- What reading one merge file yields: UTF-8 text, text only after the
latin-1 fallback (`UnicodeDecodeError` on UTF-8), or an unreadable file
(any other `OSError`, or latin-1 failing too). -/
inductive FileData
  | textUtf8 (content : String)
  | binaryLatin1 (content : String)
  | unreadable
  deriving Repr

/-- The filesystem as the server observes it: which paths exist, and what
reading each path yields. -/
structure FS where
  pathExists : String → Bool
  data : String → FileData

/-- The read of one file inside `_merge_text_content` (server.py):
`read_text(encoding="utf-8")`, falling back to `latin-1` on
`UnicodeDecodeError`; any other failure becomes an HTTP 400. -/
def readTextMerge (fs : FS) (p : String) : Except Nat String :=
  match fs.data p with
  | .textUtf8 c => .ok c
  | .binaryLatin1 c => .ok c
  | .unreadable => .error 400

/-- The `parts` list built by `_merge_text_content`'s loop: one
`"=== <basename> ===\n<content>"` section per path, in order. -/
def mergeParts (fs : FS) : List String → Except Nat (List String)
  | [] => .ok []
  | p :: rest => do
      let c ← readTextMerge fs p
      let tail ← mergeParts fs rest
      pure (("=== " ++ basename p ++ " ===\n" ++ c) :: tail)

/-- `_merge_text_content` (server.py): the sections joined by one blank
line (`"\n\n".join(parts)`). -/
def _merge_text_content (fs : FS) (paths : List String) : Except Nat String :=
  (mergeParts fs paths).map (String.intercalate "\n\n")

/-- The prompt construction in the send endpoint (server.py): when
`merge_paths` is non-empty, the merged content, two newlines, then the
original message; otherwise the message alone. -/
def buildPrompt (fs : FS) (merge_paths : List String) (message : String) :
    Except Nat String :=
  if merge_paths.isEmpty then .ok message
  else
    match _merge_text_content fs merge_paths with
    | .error e => .error e
    | .ok merged => .ok (merged ++ "\n\n" ++ message)

/-- `SendRequest` (server.py): body of `POST /api/session/{slot_id}/send`. -/
structure SendRequest where
  message : String
  merge_paths : List String := []
  file_paths : List String := []
  deriving Repr

/-- `SendRequest.validate_upload_limit` (server.py): the pydantic
`model_validator` raising `ValueError` when more than 9 binary uploads are
requested; `merge_paths` is not inspected. -/
def SendRequest.validate_upload_limit (r : SendRequest) :
    Except String SendRequest :=
  if r.file_paths.length > 9 then .error "Maximum 9 file uploads per turn"
  else .ok r

/-- How a send request leaves the HTTP layer before any slot operation:
rejected by pydantic body validation (FastAPI's default handler answers
with status 422 for a `RequestValidationError` — server.py installs no
custom handler for it), rejected by an explicit `HTTPException` (status
400 for a missing path), or delegated to `pool.send` with the final prompt
and the binary upload list (`None` when `file_paths` is empty). -/
inductive SendHttp
  | validationError (status : Nat)
  | httpError (status : Nat)
  | delegated (prompt : String) (uploads : Option (List String))
  deriving Repr

/-- The send endpoint (server.py `send_message`) up to the `pool.send`
call: pydantic validation of the body, the existence check over
`merge_paths + file_paths`, then the merge-and-prepend step. -/
def send_message_endpoint (fs : FS) (r : SendRequest) : SendHttp :=
  match r.validate_upload_limit with
  | .error _ => .validationError 422
  | .ok _ =>
      match (r.merge_paths ++ r.file_paths).find? (fun p => !fs.pathExists p) with
      | some _ => .httpError 400
      | none =>
          match buildPrompt fs r.merge_paths r.message with
          | .error e => .httpError e
          | .ok prompt =>
              .delegated prompt
                (if r.file_paths.isEmpty then none else some r.file_paths)

/-- The HTTP status of a send-endpoint outcome, when it was rejected before
reaching the pool. -/
def SendHttp.status : SendHttp → Option Nat
  | .validationError s => some s
  | .httpError s => some s
  | .delegated _ _ => none

/-- ASCII whitespace, the characters Python's `str.strip()` removes (the
texts the extractor inspects are ASCII-spaced). -/
def isSpaceChar (c : Char) : Bool :=
  c = ' ' || c = '\t' || c = '\n' || c = '\r' || c = '\x0b' || c = '\x0c'

/-- Python's `str.strip()`: drop leading and trailing whitespace. -/
def strStrip (s : String) : String :=
  ⟨((s.data.dropWhile isSpaceChar).reverse.dropWhile isSpaceChar).reverse⟩

/-- Python's `str.lower()` on one character (ASCII range; the stop-phrase
indicators are ASCII). -/
def charLower (c : Char) : Char :=
  if c.toNat ≥ 65 ∧ c.toNat ≤ 90 then Char.ofNat (c.toNat + 32) else c

/-- Python's `str.lower()` (ASCII range). -/
def strLower (s : String) : String :=
  ⟨s.data.map charLower⟩

/-- The `stopped_indicators` list of `extract_response_via_clipboard`
(clipboard.py). -/
def stoppedIndicators : List String :=
  ["antwort angehalten", "response stopped", "you stopped this response"]

/-- Python's `sub in hay` substring test. -/
def containsSub (hay sub : String) : Bool :=
  (List.range (hay.data.length + 1)).any
    (fun i => sub.data.isPrefixOf (hay.data.drop i))

/-- What the page reports to the extractor at each poll.  `counts i` is the
`model-response` element count at the i-th phase-1 check; `busy i` /
`stopBtn i` report the `aria-busy` markdown divs and the stop button at the
i-th phase-2 check; `hasResponses2b` and `lastText2b` describe the phase-2b
re-query (`lastText2b = .error ()` models `inner_text` raising, which the
code swallows into an empty preview); `copyResult` is what the locked
phase-3 copy sequence (`_copy_response`) would return. -/
structure PageObs where
  counts : Nat → Nat
  busy : Nat → Bool
  stopBtn : Nat → Bool
  hasResponses2b : Bool
  lastText2b : Except Unit String
  copyResult : String × RespFormat

/-- How `extract_response_via_clipboard` can fail: the phase-2 generation
timeout (`TimeoutError`), the stopped-response `RuntimeError`, or the
empty-response `RuntimeError`. -/
inductive ExtractError
  | timeoutErr
  | stoppedErr
  | emptyErr
  deriving DecidableEq, Repr

/-- The outcome of one extraction, together with whether the phase-3
clipboard locks were taken and the copy sequence run. -/
structure ExtractOut where
  result : Except ExtractError (String × RespFormat)
  lockAcquired : Bool
  copyAttempted : Bool
  deriving Repr

/-- Number of phase-2 checks: the loop polls while `elapsed_ms <
response_timeout_ms` with a 1000 ms step, so checks happen at every
`i * 1000 < response_timeout_ms`. -/
def phase2Polls (response_timeout_ms : Nat) : Nat :=
  (response_timeout_ms + 999) / 1000

/-- The stripped `preview` text of phase 2b: `inner_text().strip()`, with a
raising `inner_text` swallowed into the empty string. -/
def previewOf (obs : PageObs) : String :=
  match obs.lastText2b with
  | .ok t => strStrip t
  | .error _ => ""

/-- `extract_response_via_clipboard` (clipboard.py).  Phase 1 polls up to 30
times (30 s at 1 s steps) for a `model-response` count above
`previous_count`; the loop's `else` arm returns `("", "plaintext")` without
raising.  Phase 2 polls while `elapsed < response_timeout_ms` until no
busy marker and no stop button are visible, raising `TimeoutError`
otherwise.  Phase 2b raises the stopped / empty `RuntimeError`s.  Phase 3
takes the two clipboard locks and runs the copy sequence. -/
def extract_response_via_clipboard (obs : PageObs) (previous_count : Nat)
    (response_timeout_ms : Nat) : ExtractOut :=
  match (List.range 30).find? (fun i => previous_count < obs.counts i) with
  | none => { result := .ok ("", .plaintext), lockAcquired := false, copyAttempted := false }
  | some _ =>
    match (List.range (phase2Polls response_timeout_ms)).find?
        (fun i => !obs.busy i && !obs.stopBtn i) with
    | none => { result := .error .timeoutErr, lockAcquired := false, copyAttempted := false }
    | some _ =>
        if obs.hasResponses2b then
          if stoppedIndicators.any
              (fun ind => containsSub (strLower (previewOf obs)) ind) then
            { result := .error .stoppedErr, lockAcquired := false, copyAttempted := false }
          else if previewOf obs = "" then
            { result := .error .emptyErr, lockAcquired := false, copyAttempted := false }
          else
            { result := .ok obs.copyResult, lockAcquired := true, copyAttempted := true }
        else
          { result := .ok obs.copyResult, lockAcquired := true, copyAttempted := true }

/-! ### Concrete example objects used by the witness theorems -/

/-- A slot that is BUSY, owned by `"A"` with token `"tA"`. -/
def slotBusyA : Slot :=
  { slot_id := 0, state := .BUSY, owner := some "A", lease_token := some "tA" }

/-- A second BUSY slot, owned by `"B"` with token `"tB"`. -/
def slotBusyB : Slot :=
  { slot_id := 1, state := .BUSY, owner := some "B", lease_token := some "tB" }

/-- A two-slot pool where both slots are BUSY and owners `"C"`, `"D"` wait
in the queue. -/
def poolBusyQueued : SlotPool :=
  { slots := [slotBusyA, slotBusyB],
    queue := [{ owner := "C", enqueued_at := 1 }, { owner := "D", enqueued_at := 2 }],
    pool_config := { size := 2, max_queue_depth := 10 } }

/-- A pool with one FREE slot and an empty queue. -/
def poolOneFree : SlotPool :=
  { slots := [{ slot_id := 0 }], queue := [], pool_config := {} }

/-- Page observations where one response appears at once, generation is
already clear, and the last response reads as a stopped response. -/
def obsStopped : PageObs :=
  { counts := fun _ => 1, busy := fun _ => false, stopBtn := fun _ => false,
    hasResponses2b := true, lastText2b := .ok "  You stopped this response  ",
    copyResult := ("ignored", .markdown) }

/-- Page observations where the container count never rises above zero. -/
def obsNoResponse : PageObs :=
  { counts := fun _ => 0, busy := fun _ => false, stopBtn := fun _ => false,
    hasResponses2b := true, lastText2b := .ok "late text",
    copyResult := ("ignored", .markdown) }

/-- A filesystem carrying the two merge files of the spec's scenario 6. -/
def fsMergeExample : FS :=
  { pathExists := fun _ => true,
    data := fun p =>
      if p = "a.txt" then .textUtf8 "hello"
      else if p = "b.txt" then .textUtf8 "world"
      else .unreadable }

/-- A filesystem on which every path exists and reads as text. -/
def fsAllExist : FS :=
  { pathExists := fun _ => true, data := fun _ => .textUtf8 "x" }

/-- A filesystem on which exactly `"gone.txt"` is missing. -/
def fsOneMissing : FS :=
  { pathExists := fun p => !(p == "gone.txt"), data := fun _ => .textUtf8 "x" }

/-- A send request with ten binary upload paths. -/
def reqTenFiles : SendRequest :=
  { message := "m",
    file_paths := ["f1", "f2", "f3", "f4", "f5", "f6", "f7", "f8", "f9", "f10"] }

/-- A send request with nine binary upload paths. -/
def reqNineFiles : SendRequest :=
  { message := "m",
    file_paths := ["f1", "f2", "f3", "f4", "f5", "f6", "f7", "f8", "f9"] }

/-- A send request naming one path that does not exist on `fsOneMissing`. -/
def reqMissingPath : SendRequest :=
  { message := "m", merge_paths := ["gone.txt"], file_paths := [] }

/-! ### Theorems -/

/-- C3: `validate_lease(token)` raises the lease-expired error exactly when
the slot's state is not BUSY; raises the invalid-token error exactly when
the state is BUSY but the stored token differs from the presented token;
and returns normally exactly when the state is BUSY and the tokens match
(the function mutates nothing, so "changing nothing" holds by construction
of the embedding — it returns no updated slot).  The lease-expired check is
performed first, so it takes precedence over the token comparison. -/
theorem validate_lease_spec (s : Slot) (token : String) :
    (s.validate_lease token = .error .leaseExpired ↔ s.state ≠ .BUSY)
    ∧ (s.validate_lease token = .error .invalidToken ↔
        (s.state = .BUSY ∧ s.lease_token ≠ some token))
    ∧ (s.validate_lease token = .ok () ↔
        (s.state = .BUSY ∧ s.lease_token = some token)) := by
  unfold Slot.validate_lease
  by_cases h : s.state = SlotState.BUSY
  · by_cases h2 : s.lease_token = some token <;> simp [h, h2]
  · simp [h]

/-- C3 witness: on a concrete BUSY slot, presenting the stored token
succeeds, a wrong token yields the invalid-token error, and on the released
slot any token yields the lease-expired error. -/
theorem validate_lease_spec_witness :
    slotBusyA.validate_lease "tA" = .ok ()
    ∧ slotBusyA.validate_lease "wrong" = .error .invalidToken
    ∧ (slotBusyA.release).validate_lease "tA" = .error .leaseExpired := by
  refine ⟨?_, ?_, ?_⟩
  · exact (validate_lease_spec slotBusyA "tA").2.2.mpr (by constructor <;> rfl)
  · exact (validate_lease_spec slotBusyA "wrong").2.1.mpr (by refine ⟨rfl, by decide⟩)
  · exact (validate_lease_spec slotBusyA.release "tA").1.mpr (by decide)

/-- C5: `send_message` wraps `_send_impl` in an outer deadline of exactly
`response_timeout_ms / 1000 + 100` seconds (the bound handed to
`asyncio.wait_for`, so by the library's contract the call returns or raises
within it); when that deadline expires the call raises the timeout error
carrying that bound, and the slot's state, owner and lease token are left
exactly as they were — in particular a BUSY slot stays BUSY. -/
theorem send_message_timeout_envelope (s : Slot) (cfg : BrowserConfig)
    (message : String) (t0 t1 : Nat) :
    sendTimeoutS cfg = (cfg.response_timeout_ms : ℚ) / 1000 + 100
    ∧ (s.send_message cfg message .timedOut t0 t1).2
        = .error (.timeoutError (sendTimeoutS cfg))
    ∧ (s.send_message cfg message .timedOut t0 t1).1.state = s.state
    ∧ (s.send_message cfg message .timedOut t0 t1).1.owner = s.owner
    ∧ (s.send_message cfg message .timedOut t0 t1).1.lease_token = s.lease_token
    ∧ (s.state = .BUSY →
        (s.send_message cfg message .timedOut t0 t1).1.state = .BUSY) := by
  refine ⟨?_, rfl, rfl, rfl, rfl, fun h => by simp [Slot.send_message, h]⟩
  unfold sendTimeoutS SEND_TIMEOUT_MARGIN_S
  norm_num

/-- C5 witness: the concrete BUSY slot with the default configuration —
the deadline is 2500 s, the timeout error is raised, and the slot is still
BUSY afterwards. -/
theorem send_message_timeout_envelope_witness :
    sendTimeoutS {} = 2500
    ∧ (slotBusyA.send_message {} "hi" .timedOut 0 7).2
        = .error (.timeoutError (sendTimeoutS {}))
    ∧ (slotBusyA.send_message {} "hi" .timedOut 0 7).1.state = .BUSY := by
  have h := send_message_timeout_envelope slotBusyA {} "hi" 0 7
  refine ⟨?_, h.2.1, h.2.2.2.2.2 (by rfl)⟩
  rw [h.1]
  norm_num

/-- C10: whenever `send_message` ends in the outer timeout or in an
exception escaping `_send_impl`, the slot's state, owner, lease token,
message counter and message preview are exactly what they were before the
call, the result is an error, and the `finally` clause leaves `is_sending`
false; `is_sending` is false after every call; the counter and the
50-character preview are updated exactly on the success path. -/
theorem send_message_frame_spec (s : Slot) (cfg : BrowserConfig)
    (message : String) (outcome : SendOutcome) (t0 t1 : Nat) :
    ((s.send_message cfg message outcome t0 t1).1.is_sending = false)
    ∧ (outcome = .timedOut ∨ outcome = .failed →
        (s.send_message cfg message outcome t0 t1).1.state = s.state
        ∧ (s.send_message cfg message outcome t0 t1).1.owner = s.owner
        ∧ (s.send_message cfg message outcome t0 t1).1.lease_token = s.lease_token
        ∧ (s.send_message cfg message outcome t0 t1).1.message_count = s.message_count
        ∧ (s.send_message cfg message outcome t0 t1).1.message_preview = s.message_preview
        ∧ ∃ e, (s.send_message cfg message outcome t0 t1).2 = .error e)
    ∧ (∀ text fmt,
        (s.send_message cfg message (.success text fmt) t0 t1).1.message_count
            = s.message_count + 1
        ∧ (s.send_message cfg message (.success text fmt) t0 t1).1.message_preview
            = message.take 50) := by
  unfold Slot.send_message
  refine ⟨?_, ?_, ?_⟩
  · cases outcome <;> simp
  · rintro (rfl | rfl) <;> simp
  · intro text fmt
    simp

/-- C10 witness: on the concrete BUSY slot, a failed send leaves every
listed field unchanged with `is_sending` false, and a successful send bumps
the counter. -/
theorem send_message_frame_spec_witness :
    (slotBusyA.send_message {} "msg" .failed 0 5).1.owner = some "A"
    ∧ (slotBusyA.send_message {} "msg" .failed 0 5).1.message_count = 0
    ∧ (slotBusyA.send_message {} "msg" .failed 0 5).1.is_sending = false
    ∧ (slotBusyA.send_message {} "msg" (.success "r" .markdown) 0 5).1.message_count = 1 := by
  have h := send_message_frame_spec slotBusyA {} "msg" .failed 0 5
  have hframe := h.2.1 (Or.inr rfl)
  exact ⟨hframe.2.1, hframe.2.2.2.1, h.1, (h.2.2 "r" .markdown).1⟩

/-- C9: when the `model-response` count never exceeds `previous_count`
during the 30 one-second phase-1 polls, `extract_response_via_clipboard`
does not raise: it returns normally with `("", "plaintext")` (and never
reaches the locked copy phase). -/
theorem phase1_no_response_returns_empty (obs : PageObs)
    (previous_count response_timeout_ms : Nat)
    (h : ∀ i, i < 30 → obs.counts i ≤ previous_count) :
    extract_response_via_clipboard obs previous_count response_timeout_ms
      = { result := .ok ("", .plaintext), lockAcquired := false,
          copyAttempted := false } := by
  unfold extract_response_via_clipboard
  have hf : (List.range 30).find? (fun i => previous_count < obs.counts i) = none := by
    rw [List.find?_eq_none]
    intro i hi
    simp only [List.mem_range] at hi
    simpa using Nat.not_lt.mpr (h i hi)
  rw [hf]

/-- C9 witness: concrete observations whose container count stays at zero
produce the empty plaintext result. -/
theorem phase1_no_response_returns_empty_witness :
    extract_response_via_clipboard obsNoResponse 0 5000
      = { result := .ok ("", .plaintext), lockAcquired := false,
          copyAttempted := false } :=
  phase1_no_response_returns_empty obsNoResponse 0 5000
    (fun _ _ => Nat.le_refl 0)

/-- C8: in phase 2b — after a new response was detected (phase 1) and
generation has cleared (phase 2), and before any lock is taken — when the
last response container exists, a text matching one of the localized
"you stopped this response" phrases fails the extraction with the stopped
error, and an empty (stripped) text fails it with the empty error; in both
cases neither clipboard lock is acquired and no copy is attempted.  The
stopped check runs first. -/
theorem phase2b_stopped_empty_spec (obs : PageObs)
    (previous_count tmo i1 i2 : Nat)
    (h1 : (List.range 30).find? (fun i => previous_count < obs.counts i) = some i1)
    (h2 : (List.range (phase2Polls tmo)).find?
        (fun i => !obs.busy i && !obs.stopBtn i) = some i2)
    (h2b : obs.hasResponses2b = true) :
    (stoppedIndicators.any (fun ind => containsSub (strLower (previewOf obs)) ind) = true →
      extract_response_via_clipboard obs previous_count tmo
        = { result := .error .stoppedErr, lockAcquired := false,
            copyAttempted := false })
    ∧ (stoppedIndicators.any (fun ind => containsSub (strLower (previewOf obs)) ind) = false →
       previewOf obs = "" →
      extract_response_via_clipboard obs previous_count tmo
        = { result := .error .emptyErr, lockAcquired := false,
            copyAttempted := false }) := by
  unfold extract_response_via_clipboard
  rw [h1, h2]
  constructor
  · intro hstop
    simp [h2b, hstop]
  · intro hstop hemp
    rw [hemp] at hstop
    simp [h2b, hstop, hemp]

/-- C8 witness: concrete observations whose last response reads
"You stopped this response" fail with the stopped error, without locking
or copying. -/
theorem phase2b_stopped_empty_spec_witness :
    extract_response_via_clipboard obsStopped 0 5000
      = { result := .error .stoppedErr, lockAcquired := false,
          copyAttempted := false } :=
  (phase2b_stopped_empty_spec obsStopped 0 5000 0 0 rfl rfl rfl).1 (by decide)

/-- Helper: when every merge file reads successfully, the `parts` list of
`_merge_text_content` is one header-plus-content section per path, in
request order. -/
theorem mergeParts_ok (fs : FS) :
    ∀ (paths contents : List String),
      paths.map (readTextMerge fs) = contents.map Except.ok →
      mergeParts fs paths
        = .ok (List.zipWith
            (fun p c => "=== " ++ basename p ++ " ===\n" ++ c) paths contents) := by
  intro paths
  induction paths with
  | nil =>
      intro contents h
      cases contents with
      | nil => rfl
      | cons c cs => simp at h
  | cons p rest ih =>
      intro contents h
      cases contents with
      | nil => simp at h
      | cons c cs =>
          simp only [List.map_cons, List.cons.injEq] at h
          obtain ⟨hhead, htail⟩ := h
          simp only [mergeParts, bind, Except.bind, hhead, ih cs htail,
            List.zipWith_cons_cons, pure, Except.pure]

/-- C6: with non-empty `merge_paths` whose files all read successfully, the
prompt handed to the slot is the `"=== <basename> ===\n<content>"` sections
in request order, joined by one blank line, followed by two newlines and
the original message.  Each merge file is read as UTF-8 with the latin-1
single-byte fallback when UTF-8 decoding fails, and the request validator
puts no count limit on `merge_paths` (only `file_paths` is bounded). -/
theorem merge_prompt_spec (fs : FS) (paths contents : List String)
    (message : String)
    (hne : paths ≠ [])
    (hread : paths.map (readTextMerge fs) = contents.map Except.ok) :
    buildPrompt fs paths message
      = .ok (String.intercalate "\n\n"
          (List.zipWith (fun p c => "=== " ++ basename p ++ " ===\n" ++ c)
            paths contents)
          ++ "\n\n" ++ message)
    ∧ (∀ q c, fs.data q = .binaryLatin1 c → readTextMerge fs q = .ok c)
    ∧ (∀ r : SendRequest, r.file_paths.length ≤ 9 →
        r.validate_upload_limit = .ok r) := by
  refine ⟨?_, ?_, ?_⟩
  · have hmp := mergeParts_ok fs paths contents hread
    unfold buildPrompt _merge_text_content
    rw [hmp]
    simp [Except.map, List.isEmpty_iff, hne]
  · intro q c hq
    simp [readTextMerge, hq]
  · intro r hr
    simp [SendRequest.validate_upload_limit, Nat.not_lt.mpr hr]

/-- C6 witness: the spec's scenario — `a.txt` containing `hello`, `b.txt`
containing `world`, message `?` — produces exactly the claimed prompt, and
a 200-element `merge_paths` list passes the validator. -/
theorem merge_prompt_spec_witness :
    buildPrompt fsMergeExample ["a.txt", "b.txt"] "?"
      = .ok "=== a.txt ===\nhello\n\n=== b.txt ===\nworld\n\n?"
    ∧ SendRequest.validate_upload_limit
        { message := "m", merge_paths := List.replicate 200 "a.txt" }
      = .ok { message := "m", merge_paths := List.replicate 200 "a.txt" } := by
  have h := merge_prompt_spec fsMergeExample ["a.txt", "b.txt"]
    ["hello", "world"] "?" (by simp) (by rfl)
  exact ⟨h.1.trans (congrArg Except.ok (by decide)),
    h.2.2 { message := "m", merge_paths := List.replicate 200 "a.txt" } (by simp)⟩

/-- C7 counterexample: a send request with ten `file_paths` (all of which
exist) is rejected by pydantic body validation, which FastAPI's default
`RequestValidationError` handler answers with HTTP status 422 — not with
status 400 as the claim states (server.py installs custom handlers only for
`LeaseExpiredError`, `InvalidTokenError` and `KeyError`). -/
theorem file_limit_status_counterexample :
    reqTenFiles.file_paths.length = 10
    ∧ send_message_endpoint fsAllExist reqTenFiles = .validationError 422
    ∧ (send_message_endpoint fsAllExist reqTenFiles).status = some 422
    ∧ (send_message_endpoint fsAllExist reqTenFiles).status ≠ some 400 := by
  refine ⟨rfl, rfl, rfl, by decide⟩

/-- C7 (amended): a request whose `file_paths` has length greater than 9 is
rejected by request validation with HTTP status 422 (FastAPI's default
mapping of the pydantic `ValueError`); a request with 9 `file_paths` passes
the length check; and a request naming any path in `merge_paths` or
`file_paths` that does not exist is rejected with status 400 before any
slot operation runs. -/
theorem file_limit_status_amended (fs : FS) (r : SendRequest) :
    (r.file_paths.length > 9 →
        send_message_endpoint fs r = .validationError 422)
    ∧ (r.validate_upload_limit = .ok r ↔ r.file_paths.length ≤ 9)
    ∧ (r.file_paths.length ≤ 9 →
        (∃ q ∈ r.merge_paths ++ r.file_paths, fs.pathExists q = false) →
        send_message_endpoint fs r = .httpError 400) := by
  refine ⟨?_, ?_, ?_⟩
  · intro hlen
    unfold send_message_endpoint SendRequest.validate_upload_limit
    simp [hlen]
  · unfold SendRequest.validate_upload_limit
    by_cases h : r.file_paths.length > 9
    · simp [h, Nat.not_le.mpr h]
    · simp [h, Nat.not_lt.mp h]
  · intro hlen hmiss
    have hval : r.validate_upload_limit = .ok r := by
      unfold SendRequest.validate_upload_limit
      simp [Nat.not_lt.mpr hlen]
    have hfind : ((r.merge_paths ++ r.file_paths).find?
        (fun p => !fs.pathExists p)).isSome := by
      rw [List.find?_isSome]
      obtain ⟨q, hq, hqe⟩ := hmiss
      exact ⟨q, hq, by simp [hqe]⟩
    unfold send_message_endpoint
    rw [hval]
    obtain ⟨w, hw⟩ := Option.isSome_iff_exists.mp hfind
    rw [hw]

/-- C7 witness for the amended claim: nine paths pass the length check, and
a request naming the missing `gone.txt` is answered with status 400. -/
theorem file_limit_status_amended_witness :
    reqNineFiles.validate_upload_limit = .ok reqNineFiles
    ∧ send_message_endpoint fsOneMissing reqMissingPath = .httpError 400 := by
  refine ⟨(file_limit_status_amended fsOneMissing reqNineFiles).2.1.mpr (by decide), ?_⟩
  exact (file_limit_status_amended fsOneMissing reqMissingPath).2.2 (by decide)
    ⟨"gone.txt", by decide, by decide⟩

/-- Helper: the combined owner/token invariant of one slot, used for C2:
owner present iff BUSY, token present iff BUSY, and every stored token is a
32-character lowercase hex string. -/
def slotTokenInv (s : Slot) : Prop :=
  (s.owner.isSome = true ↔ s.state = .BUSY)
  ∧ (s.lease_token.isSome = true ↔ s.state = .BUSY)
  ∧ (∀ tk, s.lease_token = some tk → isHex32 tk = true)

/-- Helper: one transition preserves the owner/token invariant, provided an
acquire's generated token is 32-character lowercase hex. -/
theorem slotTokenInv_step (s : Slot) (op : SlotOp)
    (hs : slotTokenInv s)
    (hop : ∀ o t n, op = .acquireOp o t n → isHex32 t = true) :
    slotTokenInv (s.step op) := by
  obtain ⟨h1, h2, h3⟩ := hs
  cases op with
  | acquireOp o t n =>
      by_cases h : s.state = SlotState.FREE
      · have ht : isHex32 t = true := hop o t n rfl
        simp only [Slot.step, Slot.acquire, h, Slot.acquireSet, slotTokenInv]
        refine ⟨by simp, by simp, ?_⟩
        intro tk htk
        simp only [ne_eq, not_true_eq_false, if_false] at htk ⊢
        simp at htk
        exact htk ▸ ht
      · simp only [Slot.step, Slot.acquire, h, slotTokenInv]
        simp only [ne_eq, h, not_false_eq_true, if_true]
        exact ⟨h1, h2, h3⟩
  | releaseOp =>
      simp [Slot.step, Slot.release, slotTokenInv]
  | markErrorOp =>
      simp [Slot.step, Slot.mark_error, slotTokenInv]
  | markFreeOp n =>
      simp [Slot.step, Slot.mark_free, slotTokenInv]

/-- Helper: the owner/token invariant is preserved by every transition
sequence whose acquire tokens are 32-character lowercase hex. -/
theorem slotTokenInv_run (ops : List SlotOp) :
    ∀ (s : Slot), slotTokenInv s →
    (∀ o t n, SlotOp.acquireOp o t n ∈ ops → isHex32 t = true) →
    slotTokenInv (s.run ops) := by
  induction ops with
  | nil => intro s hs _; exact hs
  | cons op rest ih =>
      intro s hs hhex
      have hstep := slotTokenInv_step s op hs
        (fun o t n hop => hhex o t n (hop ▸ List.mem_cons_self op rest))
      have := ih (s.step op) hstep
        (fun o t n hmem => hhex o t n (List.mem_cons_of_mem op hmem))
      simpa [Slot.run, List.foldl_cons] using this

/-- C2: after every sequence of acquire / release / mark_error / mark_free
transitions from a fresh slot, the slot has an owner iff it is BUSY and has
a lease token iff it is BUSY (so FREE and ERROR slots have both fields
null); every stored token is a 32-character lowercase hex string, provided
each acquire's generated token is one (the `uuid.uuid4().hex` guarantee,
modelled as a hypothesis on the supplied tokens); and acquiring a FREE slot
always installs the newly generated token — the token is regenerated on
every fresh acquire. -/
theorem slot_token_owner_invariant (slot_id now : Nat) (ops : List SlotOp)
    (hhex : ∀ o t n, SlotOp.acquireOp o t n ∈ ops → isHex32 t = true) :
    (((Slot.init slot_id now).run ops).owner.isSome = true
        ↔ ((Slot.init slot_id now).run ops).state = .BUSY)
    ∧ (((Slot.init slot_id now).run ops).lease_token.isSome = true
        ↔ ((Slot.init slot_id now).run ops).state = .BUSY)
    ∧ (∀ tk, ((Slot.init slot_id now).run ops).lease_token = some tk →
        isHex32 tk = true)
    ∧ (∀ (s : Slot) (o t : String) (n : Nat), s.state = .FREE →
        (s.step (.acquireOp o t n)).lease_token = some t) := by
  have hinit : slotTokenInv (Slot.init slot_id now) := by
    simp [slotTokenInv, Slot.init]
  obtain ⟨h1, h2, h3⟩ := slotTokenInv_run ops (Slot.init slot_id now) hinit hhex
  refine ⟨h1, h2, h3, ?_⟩
  intro s o t n hfree
  simp [Slot.step, Slot.acquire, hfree, Slot.acquireSet]

/-- C2 witness: a concrete run — acquire with a hex token, release, acquire
with a second hex token, mark_error — ends with no owner, no token and
state ERROR, and acquiring a FREE slot stores exactly the supplied fresh
token. -/
theorem slot_token_owner_invariant_witness :
    (((Slot.init 0 0).run
        [.acquireOp "A" "0123456789abcdef0123456789abcdef" 1, .releaseOp,
         .acquireOp "B" "00000000000000000000000000000000" 2,
         .markErrorOp]).state = .ERROR)
    ∧ (((Slot.init 0 0).run
        [.acquireOp "A" "0123456789abcdef0123456789abcdef" 1, .releaseOp,
         .acquireOp "B" "00000000000000000000000000000000" 2,
         .markErrorOp]).owner.isSome = false)
    ∧ ((Slot.init 0 0).step
        (.acquireOp "A" "0123456789abcdef0123456789abcdef" 1)).lease_token
        = some "0123456789abcdef0123456789abcdef" := by
  have h := slot_token_owner_invariant 0 0
    [.acquireOp "A" "0123456789abcdef0123456789abcdef" 1, .releaseOp,
     .acquireOp "B" "00000000000000000000000000000000" 2,
     .markErrorOp]
    (by
      intro o t n hmem
      simp only [List.mem_cons, List.not_mem_nil, or_false] at hmem
      rcases hmem with h | h | h | h
      · cases h; decide
      · cases h
      · cases h; decide
      · cases h)
  have h3 := h.2.2.2 (Slot.init 0 0) "A" "0123456789abcdef0123456789abcdef" 1
    (by decide)
  exact And.intro (by decide) (And.intro (by decide) h3)

/-- Helper: the reattach scan finds nothing exactly when no slot is BUSY
with the given owner. -/
theorem findReattach_eq_none_iff (owner : String) (l : List Slot) :
    findReattach owner l = none
      ↔ ∀ s ∈ l, ¬(s.state = .BUSY ∧ s.owner = some owner) := by
  induction l with
  | nil => simp [findReattach]
  | cons s rest ih =>
      by_cases h : s.state = SlotState.BUSY ∧ s.owner = some owner
      · simp [findReattach, h]
      · simp [findReattach, h, ih]
        exact fun _ hb ho => h ⟨hb, ho⟩

/-- Helper: the queue scan finds nothing exactly when no entry belongs to
the given owner. -/
theorem queuePosition_eq_none_iff (owner : String) (q : List QueueEntry) :
    queuePosition owner q = none ↔ ∀ e ∈ q, e.owner ≠ owner := by
  induction q with
  | nil => simp [queuePosition]
  | cons e rest ih =>
      by_cases h : e.owner = owner
      · simp [queuePosition, h]
      · simp [queuePosition, h, ih]

/-- Helper: a found queue position is the 0-based index of an entry of that
owner. -/
theorem queuePosition_some_owner (owner : String) :
    ∀ (q : List QueueEntry) (i : Nat), queuePosition owner q = some i →
      (q[i]?).map QueueEntry.owner = some owner := by
  intro q
  induction q with
  | nil => intro i h; simp [queuePosition] at h
  | cons e rest ih =>
      intro i h
      by_cases he : e.owner = owner
      · simp [queuePosition, he] at h
        subst h
        simp [he]
      · simp only [queuePosition, he, if_false] at h
        cases hrec : queuePosition owner rest with
        | none => rw [hrec] at h; simp at h
        | some j =>
            rw [hrec] at h
            simp only [Option.map_some', Option.some.injEq] at h
            subst h
            simpa using ih j hrec

/-- Helper: the free-slot scan finds nothing exactly when no slot is FREE. -/
theorem acquireFirstFree_eq_none_iff (owner tok : String) (now : Nat)
    (l : List Slot) :
    acquireFirstFree owner tok now l = none ↔ ∀ s ∈ l, s.state ≠ .FREE := by
  induction l with
  | nil => simp [acquireFirstFree]
  | cons s rest ih =>
      by_cases h : s.state = SlotState.FREE
      · simp [acquireFirstFree, h]
      · cases hrec : acquireFirstFree owner tok now rest with
        | none => simp [acquireFirstFree, h, hrec, ← ih, hrec]
        | some pr => simp [acquireFirstFree, h, hrec, ← ih, hrec]

/-- Helper: after the free-slot scan acquired a slot for an owner who had no
BUSY slot, the reattach scan of the updated list finds exactly the newly
acquired slot: same id, BUSY, that owner, the fresh token. -/
theorem findReattach_after_firstFree (owner tok : String) (now : Nat) :
    ∀ (l : List Slot) (sid : Nat) (l2 : List Slot),
      findReattach owner l = none →
      acquireFirstFree owner tok now l = some (sid, l2) →
      ∃ s2, findReattach owner l2 = some s2 ∧ s2.slot_id = sid
        ∧ s2.state = .BUSY ∧ s2.owner = some owner
        ∧ s2.lease_token = some tok := by
  intro l
  induction l with
  | nil => intro sid l2 _ h; simp [acquireFirstFree] at h
  | cons s rest ih =>
      intro sid l2 hnone hff
      have hcond : ¬(s.state = SlotState.BUSY ∧ s.owner = some owner) := by
        intro hc
        simp [findReattach, hc] at hnone
      have hrest : findReattach owner rest = none := by
        simpa [findReattach, hcond] using hnone
      by_cases hf : s.state = SlotState.FREE
      · simp only [acquireFirstFree, hf, if_true, Option.some.injEq,
          Prod.mk.injEq] at hff
        obtain ⟨hsid, hl2⟩ := hff
        refine ⟨s.acquireSet owner tok now, ?_, by simp [Slot.acquireSet, hsid],
          rfl, rfl, rfl⟩
        rw [← hl2]
        simp [findReattach, Slot.acquireSet]
      · cases hrec : acquireFirstFree owner tok now rest with
        | none => simp [acquireFirstFree, hf, hrec] at hff
        | some pr =>
            obtain ⟨sid2, rest2⟩ := pr
            simp only [acquireFirstFree, hf, if_false, hrec,
              Option.some.injEq, Prod.mk.injEq] at hff
            obtain ⟨hsid, hl2⟩ := hff
            obtain ⟨s2, hfind, hid, hst, how, htk⟩ := ih sid2 rest2 hrest hrec
            refine ⟨s2, ?_, by rw [hid, hsid], hst, how, htk⟩
            rw [← hl2]
            simp [findReattach, hcond, hfind]

/-- C1: `acquire(owner)` returns exactly one of three shapes, decided in
this order: (1) if some slot is BUSY with that owner, it returns `acquired`
with that slot's id and its existing token and `reattached = true`, leaving
the pool unchanged — so repeating `acquire` while the owner holds a slot
returns the same `(slot_id, token)` every time, whatever fresh token or
clock the repeat would have used; (2) else if the owner already has a queue
entry, it returns `queued` with that entry's current 1-based position (the
entry at that index belongs to the owner); (3) else if some slot is FREE,
it returns `acquired` with the fresh token and `reattached = false`, and a
subsequent `acquire` by the same owner reattaches to the same slot and
token; (4) else if the queue depth is below the configured maximum, it
appends the owner and returns `queued`; (5) else it returns `rejected`
with total slots, queue depth and queue maximum.  The two `iff` conjuncts
tie the scan outcomes to the claim's "some slot is BUSY with that owner" /
"some slot is FREE" conditions. -/
theorem pool_acquire_cases (p : SlotPool) (owner tok : String) (now : Nat) :
    (∀ s, findReattach owner p.slots = some s →
      SlotPool.acquire p owner tok now
        = (.acquired s.slot_id s.lease_token true
            p.pool_config.inactivity_timeout_s, p)
      ∧ ∀ tok2 now2, SlotPool.acquire p owner tok2 now2
        = (.acquired s.slot_id s.lease_token true
            p.pool_config.inactivity_timeout_s, p))
    ∧ (findReattach owner p.slots = none ↔
        ∀ s ∈ p.slots, ¬(s.state = .BUSY ∧ s.owner = some owner))
    ∧ (findReattach owner p.slots = none →
       ∀ i, queuePosition owner p.queue = some i →
        SlotPool.acquire p owner tok now
          = (.queued (i + 1) (max 1 ((i + 1) * 30)), p)
        ∧ (p.queue[i]?).map QueueEntry.owner = some owner)
    ∧ (findReattach owner p.slots = none →
       queuePosition owner p.queue = none →
       ∀ sid slots2, acquireFirstFree owner tok now p.slots = some (sid, slots2) →
        SlotPool.acquire p owner tok now
          = (.acquired sid (some tok) false p.pool_config.inactivity_timeout_s,
             { p with slots := slots2 })
        ∧ ∀ tok2 now2,
            SlotPool.acquire { p with slots := slots2 } owner tok2 now2
              = (.acquired sid (some tok) true p.pool_config.inactivity_timeout_s,
                 { p with slots := slots2 }))
    ∧ (acquireFirstFree owner tok now p.slots = none ↔
        ∀ s ∈ p.slots, s.state ≠ .FREE)
    ∧ (findReattach owner p.slots = none →
       queuePosition owner p.queue = none →
       acquireFirstFree owner tok now p.slots = none →
       p.queue.length < p.pool_config.max_queue_depth →
        SlotPool.acquire p owner tok now
          = (.queued (p.queue.length + 1) (max 1 ((p.queue.length + 1) * 30)),
             { p with queue := p.queue ++ [{ owner := owner, enqueued_at := now }] }))
    ∧ (findReattach owner p.slots = none →
       queuePosition owner p.queue = none →
       acquireFirstFree owner tok now p.slots = none →
       ¬(p.queue.length < p.pool_config.max_queue_depth) →
        SlotPool.acquire p owner tok now
          = (.rejected p.slots.length p.queue.length
              p.pool_config.max_queue_depth, p)) := by
  refine ⟨?_, findReattach_eq_none_iff owner p.slots, ?_, ?_,
    acquireFirstFree_eq_none_iff owner tok now p.slots, ?_, ?_⟩
  · intro s hs
    constructor
    · unfold SlotPool.acquire
      rw [hs]
    · intro tok2 now2
      unfold SlotPool.acquire
      rw [hs]
  · intro hre i hqp
    refine ⟨?_, queuePosition_some_owner owner p.queue i hqp⟩
    unfold SlotPool.acquire
    rw [hre, hqp]
  · intro hre hqp sid slots2 hff
    constructor
    · unfold SlotPool.acquire
      rw [hre, hqp, hff]
    · intro tok2 now2
      obtain ⟨s2, hfind, hid, _, _, htk⟩ :=
        findReattach_after_firstFree owner tok now p.slots sid slots2 hre hff
      unfold SlotPool.acquire
      simp only [hfind]
      rw [hid, htk]
  · intro hre hqp hff hlt
    unfold SlotPool.acquire
    rw [hre, hqp, hff]
    simp [hlt]
  · intro hre hqp hff hge
    unfold SlotPool.acquire
    rw [hre, hqp, hff]
    simp [hge]

/-- C1 witness: on a concrete pool with busy slot 0 (owner A, token tA),
busy slot 1 and queued owners C, D — A reattaches to slot 0 with token tA
and the pool unchanged; C is reported queued at position 1; on a one-free-
slot pool a fresh owner acquires slot 0 with the fresh token, and acquiring
again reattaches to the same slot and token; with both slots busy and the
queue at its maximum of 10 entries a new owner is rejected with the totals
(2, 10, 10). -/
theorem pool_acquire_cases_witness :
    SlotPool.acquire poolBusyQueued "A" "fresh" 9
      = (.acquired 0 (some "tA") true 300, poolBusyQueued)
    ∧ SlotPool.acquire poolBusyQueued "C" "fresh" 9
      = (.queued 1 30, poolBusyQueued)
    ∧ SlotPool.acquire poolOneFree "E" "tE" 3
      = (.acquired 0 (some "tE") false 300,
         { poolOneFree with
             slots := [(({ slot_id := 0 } : Slot).acquireSet "E" "tE" 3)] })
    ∧ (SlotPool.acquire
        { poolBusyQueued with
            queue := List.replicate 10 { owner := "Z", enqueued_at := 0 } }
        "Y" "tY" 4).1
      = .rejected 2 10 10 := by
  have h1 := (pool_acquire_cases poolBusyQueued "A" "fresh" 9).1 slotBusyA (by decide)
  have h2 := (pool_acquire_cases poolBusyQueued "C" "fresh" 9).2.2.1 (by decide) 0
    (by decide)
  have h3 := (pool_acquire_cases poolOneFree "E" "tE" 3).2.2.2.1 (by decide)
    (by decide) 0 [(({ slot_id := 0 } : Slot).acquireSet "E" "tE" 3)] (by decide)
  have h4 := (pool_acquire_cases
      { poolBusyQueued with
          queue := List.replicate 10 { owner := "Z", enqueued_at := 0 } }
      "Y" "tY" 4).2.2.2.2.2.2 (by decide) (by decide) (by decide) (by decide)
  exact ⟨h1.1, h2.1, h3.1, by rw [h4]; rfl⟩

/-- Helper: a slot found by id has that id. -/
theorem findSlot_id (sid : Nat) :
    ∀ (l : List Slot) (s : Slot), findSlot sid l = some s → s.slot_id = sid := by
  intro l
  induction l with
  | nil => intro s h; simp [findSlot] at h
  | cons s0 rest ih =>
      intro s h
      by_cases h0 : s0.slot_id = sid
      · simp [findSlot, h0] at h
        rw [← h]
        exact h0
      · simp only [findSlot, h0, if_false] at h
        exact ih s h

/-- Helper: updating the slot found by id makes the lookup return the new
slot, provided the new slot keeps the id. -/
theorem findSlot_updateSlot_self (sid : Nat) (s2 : Slot)
    (hid : s2.slot_id = sid) :
    ∀ (l : List Slot) (s : Slot), findSlot sid l = some s →
      findSlot sid (updateSlot sid s2 l) = some s2 := by
  intro l
  induction l with
  | nil => intro s h; simp [findSlot] at h
  | cons s0 rest ih =>
      intro s h
      by_cases h0 : s0.slot_id = sid
      · simp [updateSlot, findSlot, h0, hid]
      · simp only [findSlot, h0, if_false] at h
        simp only [updateSlot, h0, if_false, findSlot]
        exact ih s h

/-- Helper: updating the slot with one id leaves lookups of every other id
unchanged, provided the new slot keeps the id. -/
theorem findSlot_updateSlot_other (sid sid2 : Nat) (s2 : Slot)
    (hne : sid2 ≠ sid) (hid : s2.slot_id = sid) :
    ∀ (l : List Slot), findSlot sid2 (updateSlot sid s2 l) = findSlot sid2 l := by
  intro l
  induction l with
  | nil => simp [updateSlot]
  | cons s0 rest ih =>
      have hne2 : sid ≠ sid2 := fun hc => hne hc.symm
      by_cases h0 : s0.slot_id = sid
      · have hs0 : s0.slot_id ≠ sid2 := by rw [h0]; exact hne2
        have hs2 : s2.slot_id ≠ sid2 := by rw [hid]; exact hne2
        simp [updateSlot, findSlot, h0, hs0, hs2, hne2]
      · by_cases h02 : s0.slot_id = sid2
        · simp [updateSlot, findSlot, h0, h02, hne, hne2]
        · simp [updateSlot, findSlot, h0, h02, hne, hne2, ih]

/-- Helper: a `release` with a valid lease on a pool whose queue head is
`e` pops that head and synchronously re-acquires the released slot for
`e.owner` with the handoff token, inside the same call; every other slot's
lookup is untouched. -/
theorem release_spec (p : SlotPool) (sid : Nat) (s : Slot) (tok htok : String)
    (now : Nat) (e : QueueEntry) (qrest : List QueueEntry)
    (hfind : findSlot sid p.slots = some s)
    (hbusy : s.state = .BUSY)
    (htk : s.lease_token = some tok)
    (hq : p.queue = e :: qrest) :
    SlotPool.release p sid tok htok now
      = .ok { p with
          slots := updateSlot sid ((s.release).acquireSet e.owner htok now)
                      (updateSlot sid s.release p.slots),
          queue := qrest }
      ∧ findSlot sid (updateSlot sid ((s.release).acquireSet e.owner htok now)
            (updateSlot sid s.release p.slots))
          = some ((s.release).acquireSet e.owner htok now)
      ∧ (∀ sid2, sid2 ≠ sid →
          findSlot sid2 (updateSlot sid ((s.release).acquireSet e.owner htok now)
              (updateSlot sid s.release p.slots))
            = findSlot sid2 p.slots) := by
  have hid := findSlot_id sid p.slots s hfind
  have hval : s.validate_lease tok = .ok () := by
    simp [Slot.validate_lease, hbusy, htk]
  have hrelid : (s.release).slot_id = sid := by
    simpa [Slot.release] using hid
  have hfind2 : findSlot sid (updateSlot sid s.release p.slots) = some s.release :=
    findSlot_updateSlot_self sid s.release hrelid p.slots s hfind
  have hnewid : ((s.release).acquireSet e.owner htok now).slot_id = sid := by
    simpa [Slot.acquireSet, Slot.release] using hid
  refine ⟨?_, findSlot_updateSlot_self sid _ hnewid _ s.release hfind2,
    fun sid2 hne => ?_⟩
  · unfold SlotPool.release
    rw [hfind]
    dsimp only
    rw [hval]
    dsimp only
    unfold SlotPool.assign_next_in_queue
    dsimp only
    rw [hfind2]
    dsimp only
    rw [hq]
    simp [Slot.release]
  · rw [findSlot_updateSlot_other sid sid2 _ hne hnewid,
        findSlot_updateSlot_other sid sid2 _ hne hrelid]

/-- Helper: executing k valid releases (distinct BUSY slots, correct
tokens) against a queue of at least k waiting owners succeeds, consumes
exactly the first k queue entries, and assigns them — in queue order — to
the released slots in release order, each ending BUSY; slots not released
are untouched. -/
theorem releaseAll_spec (freshTok : Nat → String) (now : Nat) :
    ∀ (reqs : List (Nat × String)) (p : SlotPool) (i0 : Nat),
      (∀ r ∈ reqs, ∃ s, findSlot r.1 p.slots = some s
          ∧ s.state = .BUSY ∧ s.lease_token = some r.2) →
      (reqs.map Prod.fst).Nodup →
      reqs.length ≤ p.queue.length →
      ∃ p2, releaseAll freshTok now p reqs i0 = .ok p2
        ∧ p2.queue = p.queue.drop reqs.length
        ∧ reqs.map (fun r => (findSlot r.1 p2.slots).map Slot.owner)
            = (p.queue.take reqs.length).map (fun e => some (some e.owner))
        ∧ (∀ r ∈ reqs, ∃ s2, findSlot r.1 p2.slots = some s2 ∧ s2.state = .BUSY)
        ∧ (∀ sid2, sid2 ∉ reqs.map Prod.fst →
            findSlot sid2 p2.slots = findSlot sid2 p.slots) := by
  intro reqs
  induction reqs with
  | nil =>
      intro p i0 _ _ _
      exact ⟨p, rfl, by simp, by simp, by simp, fun _ _ => rfl⟩
  | cons r rest ih =>
      intro p i0 hvalid hnodup hlen
      obtain ⟨sid, tk⟩ := r
      obtain ⟨s, hfind, hbusy, htk⟩ := hvalid (sid, tk) (List.mem_cons_self _ _)
      cases hq : p.queue with
      | nil => rw [hq] at hlen; simp at hlen
      | cons e qrest =>
          obtain ⟨hrel, hfindN, hframeN⟩ :=
            release_spec p sid s tk (freshTok i0) now e qrest hfind hbusy htk hq
          have hnodupParts : sid ∉ rest.map Prod.fst ∧ (rest.map Prod.fst).Nodup := by
            rw [List.map_cons] at hnodup
            exact List.nodup_cons.mp hnodup
          have hsidrest : sid ∉ rest.map Prod.fst := hnodupParts.1
          have hvalid2 : ∀ r2 ∈ rest,
              ∃ s2, findSlot r2.1
                  (updateSlot sid ((s.release).acquireSet e.owner (freshTok i0) now)
                    (updateSlot sid s.release p.slots)) = some s2
                ∧ s2.state = .BUSY ∧ s2.lease_token = some r2.2 := by
            intro r2 hr2
            obtain ⟨s2, hf2, hb2, ht2⟩ := hvalid r2 (List.mem_cons_of_mem _ hr2)
            have hne : r2.1 ≠ sid := by
              intro hc
              exact hsidrest (hc ▸ List.mem_map_of_mem Prod.fst hr2)
            exact ⟨s2, by rw [hframeN r2.1 hne]; exact hf2, hb2, ht2⟩
          have hnodup2 : (rest.map Prod.fst).Nodup := hnodupParts.2
          have hlen2 : rest.length ≤ qrest.length := by
            rw [hq] at hlen
            simpa using hlen
          obtain ⟨p2, hall, hq2, howners, hbusy2, hframe2⟩ :=
            ih { p with
                  slots := updateSlot sid
                    ((s.release).acquireSet e.owner (freshTok i0) now)
                    (updateSlot sid s.release p.slots),
                  queue := qrest } (i0 + 1) hvalid2 hnodup2 hlen2
          refine ⟨p2, ?_, ?_, ?_, ?_, ?_⟩
          · simp only [releaseAll, hrel]
            exact hall
          · rw [hq2]
            simp
          · simp only [List.map_cons, List.length_cons, List.take_succ_cons,
              List.cons.injEq]
            constructor
            · rw [hframe2 sid hsidrest]
              dsimp only
              rw [hfindN]
              simp [Slot.acquireSet]
            · simpa using howners
          · intro r2 hr2
            rcases List.mem_cons.mp hr2 with hhead | htail
            · subst hhead
              refine ⟨(s.release).acquireSet e.owner (freshTok i0) now, ?_,
                by simp [Slot.acquireSet]⟩
              rw [hframe2 sid hsidrest]
              exact hfindN
            · exact hbusy2 r2 htail
          · intro sid2 hnot
            have hnotrest : sid2 ∉ rest.map Prod.fst := by
              intro hc
              exact hnot (List.mem_cons_of_mem _ hc)
            have hnothead : sid2 ≠ sid := by
              intro hc
              exact hnot (by simp [hc])
            rw [hframe2 sid2 hnotrest]
            exact hframeN sid2 hnothead

/-- C4: the waiting queue is strict FIFO and handoff is synchronous.
Whenever `release` succeeds on a BUSY slot with its valid lease and the
queue is non-empty, the same call pops the queue's head entry and
re-acquires the freed slot for that owner before returning: the resulting
pool already shows the slot BUSY with the head owner and the handoff token
(so no later `acquire` can observe the released slot as FREE), the queue
shrunk by its head, and all other slots untouched.  Consequently, k valid
releases with at least k queued owners assign the first k queued owners, in
their enqueue order, to the released slots in release order, each ending
BUSY. -/
theorem release_fifo_handoff (p : SlotPool) (now : Nat) :
    (∀ sid s tok htok e qrest,
      findSlot sid p.slots = some s → s.state = .BUSY →
      s.lease_token = some tok → p.queue = e :: qrest →
      ∃ p2, SlotPool.release p sid tok htok now = .ok p2
        ∧ p2.queue = qrest
        ∧ (∃ s2, findSlot sid p2.slots = some s2 ∧ s2.state = .BUSY
            ∧ s2.owner = some e.owner ∧ s2.lease_token = some htok)
        ∧ (∀ sid2, sid2 ≠ sid →
            findSlot sid2 p2.slots = findSlot sid2 p.slots))
    ∧ (∀ (freshTok : Nat → String) (reqs : List (Nat × String)),
      (∀ r ∈ reqs, ∃ s, findSlot r.1 p.slots = some s
          ∧ s.state = .BUSY ∧ s.lease_token = some r.2) →
      (reqs.map Prod.fst).Nodup →
      reqs.length ≤ p.queue.length →
      ∃ p2, releaseAll freshTok now p reqs 0 = .ok p2
        ∧ p2.queue = p.queue.drop reqs.length
        ∧ reqs.map (fun r => (findSlot r.1 p2.slots).map Slot.owner)
            = (p.queue.take reqs.length).map (fun e => some (some e.owner))
        ∧ ∀ r ∈ reqs, ∃ s2, findSlot r.1 p2.slots = some s2
            ∧ s2.state = .BUSY) := by
  constructor
  · intro sid s tok htok e qrest hfind hbusy htk hq
    obtain ⟨hrel, hfindN, hframeN⟩ :=
      release_spec p sid s tok htok now e qrest hfind hbusy htk hq
    exact ⟨_, hrel, rfl,
      ⟨_, hfindN, by simp [Slot.acquireSet], by simp [Slot.acquireSet],
        by simp [Slot.acquireSet]⟩,
      fun sid2 hne => hframeN sid2 hne⟩
  · intro freshTok reqs hvalid hnodup hlen
    obtain ⟨p2, h1, h2, h3, h4, _⟩ :=
      releaseAll_spec freshTok now reqs p 0 hvalid hnodup hlen
    exact ⟨p2, h1, h2, h3, h4⟩

/-- C4 witness: on the concrete pool with BUSY slots 0 (owner A) and 1
(owner B) and queued owners C then D, releasing both slots with their
tokens hands slot 0 to C and slot 1 to D — in enqueue order — and empties
the queue. -/
theorem release_fifo_handoff_witness :
    ∃ p2, releaseAll (fun _ => "h") 9 poolBusyQueued [(0, "tA"), (1, "tB")] 0
        = .ok p2
      ∧ p2.queue = []
      ∧ (findSlot 0 p2.slots).map Slot.owner = some (some "C")
      ∧ (findSlot 1 p2.slots).map Slot.owner = some (some "D") := by
  obtain ⟨p2, h1, h2, h3, _⟩ :=
    (release_fifo_handoff poolBusyQueued 9).2 (fun _ => "h") [(0, "tA"), (1, "tB")]
      (by
        intro r hr
        rcases List.mem_cons.mp hr with h | h
        · subst h
          exact ⟨slotBusyA, rfl, rfl, rfl⟩
        · have hr1 : r = (1, "tB") := by simpa using h
          subst hr1
          exact ⟨slotBusyB, rfl, rfl, rfl⟩)
      (by decide) (by decide)
  simp [poolBusyQueued] at h3
  obtain ⟨⟨a0, hf0, ho0⟩, ⟨a1, hf1, ho1⟩⟩ := h3
  exact ⟨p2, h1, by simpa using h2, by rw [hf0]; simp [ho0], by rw [hf1]; simp [ho1]⟩
